import Mathlib

set_option maxHeartbeats 1000000
set_option maxRecDepth 4096

/-!
Shallow embedding of the NES emulator core (CPU flag/arithmetic semantics,
PPU timing and registers, cartridge header parsing) and proofs about it.

Machine bytes (`u8` in the source) are modelled as `Nat` with explicit
`% 256` wrapping wherever the source wraps.  Bit-flag registers
(`bitflags` in the source) are modelled as a `Nat` byte together with the
`insert` / `remove` / `contains` operations the `bitflags` crate provides.
Rust panics (out-of-range indexing) are modelled as `Option.none`.
-/

namespace NES

/-! ### Bit-flag register operations (semantics of the `bitflags` crate ops used by the source) -/

/-- `bits | flag` — `bitflags` `insert`. -/
def flagInsert (s f : Nat) : Nat := s ||| f

/-- `bits & !flag` on a `u8` — `bitflags` `remove` (`!f` on `u8` is `255 ^^^ f`). -/
def flagRemove (s f : Nat) : Nat := s &&& (255 ^^^ f)

/-- `bitflags` `set`. -/
def flagSet (s f : Nat) (b : Bool) : Nat := if b then flagInsert s f else flagRemove s f

/-- `bitflags` `contains`: `bits & flag == flag`. -/
def flagContains (s f : Nat) : Bool := s &&& f == f

/-! ### u8 arithmetic -/

/-- Truncation to a byte (`as u8`). -/
def wrap8 (n : Nat) : Nat := n % 256

/-- `u8::wrapping_sub` on byte values. -/
def wrappingSub8 (a b : Nat) : Nat := (a + (256 - b % 256)) % 256

/-! ### CPU status flags (`CpuFlags` in `cpu.rs`) -/

namespace CpuFlags

def CARRY : Nat := 0x01
def ZERO : Nat := 0x02
def OVERFLOW : Nat := 0x40
def NEGATIVE : Nat := 0x80

end CpuFlags

/-!
### CPU operations, `cpu.rs`

Each instruction body is embedded at the point after the operand fetch
(`get_operand_address` + `memory_read`): the fetched byte is the `value`
argument, and the flags byte `p` is `register_p`.  Operations that write the
operand location back return the written byte together with the new flags.
-/

namespace CPU

/-- `CPU::update_zero_and_negative_flags`. -/
def update_zero_and_negative_flags (p result : Nat) : Nat :=
  let p1 := if result = 0 then flagInsert p CpuFlags.ZERO else flagRemove p CpuFlags.ZERO
  if result >>> 7 = 1 then flagInsert p1 CpuFlags.NEGATIVE else flagRemove p1 CpuFlags.NEGATIVE

/-- `CPU::update_negative_flags` (used only by the memory forms of ROL/ROR). -/
def update_negative_flags (p result : Nat) : Nat :=
  if result >>> 7 = 1 then flagInsert p CpuFlags.NEGATIVE else flagRemove p CpuFlags.NEGATIVE

/-- `CPU::compare` after the operand fetch: `value` is the byte read from the
operand address, `compare_with` the register value handed over by
`cmp`/`cpx`/`cpy`.  Returns the new flags byte. -/
def compare (p value compare_with : Nat) : Nat :=
  let p1 := if value ≤ compare_with then flagInsert p CpuFlags.CARRY
            else flagRemove p CpuFlags.CARRY
  update_zero_and_negative_flags p1 (wrappingSub8 compare_with value)

/-- `CPU::dec` after the operand fetch.  Returns the byte written back to the
operand address and the new flags byte. -/
def dec (p value : Nat) : Nat × Nat :=
  let v := wrappingSub8 value 1
  (v, update_zero_and_negative_flags p v)

/-- `CPU::dcp` after the operand fetch (`register_a` is the accumulator).
Returns the byte written back to the operand address and the new flags byte.
Embeds the source verbatim, including `value.wrapping_sub(value)` and the
carry update that has no `else` branch. -/
def dcp (p register_a value : Nat) : Nat × Nat :=
  let v := wrappingSub8 value value
  let p1 := if v ≤ register_a then flagInsert p CpuFlags.CARRY else p
  (v, update_zero_and_negative_flags p1 (wrappingSub8 v v))

/-- The composition of the two documented primitives `dec` and `compare` on
the same operand fetch (what the spec requires of the unofficial DCP
opcode): decrement the operand, write it back, then compare the decremented
value with the accumulator. -/
def dcp_as_dec_then_compare (p register_a value : Nat) : Nat × Nat :=
  let r := dec p value
  (r.1, compare r.2 r.1 register_a)

/-- Memory form of `CPU::rol` after the operand fetch.  Returns the byte
written back and the new flags byte. -/
def rol (p value : Nat) : Nat × Nat :=
  let old_carry := flagContains p CpuFlags.CARRY
  let p1 := if value >>> 7 = 1 then flagInsert p CpuFlags.CARRY
            else flagRemove p CpuFlags.CARRY
  let v := wrap8 (value <<< 1)
  let v1 := if old_carry then v ||| 1 else v
  (v1, update_negative_flags p1 v1)

/-- Memory form of `CPU::ror` after the operand fetch. -/
def ror (p value : Nat) : Nat × Nat :=
  let old_carry := flagContains p CpuFlags.CARRY
  let p1 := if value &&& 1 = 1 then flagInsert p CpuFlags.CARRY
            else flagRemove p CpuFlags.CARRY
  let v := value >>> 1
  let v1 := if old_carry then v ||| 128 else v
  (v1, update_negative_flags p1 v1)

/-- `CPU::add_to_register_a` (the body of ADC after the operand fetch):
`register_a` is the accumulator, `value` the fetched operand.  Returns the
new flags byte and the new accumulator. -/
def add_to_register_a (p register_a value : Nat) : Nat × Nat :=
  let sum := register_a + value + (if flagContains p CpuFlags.CARRY then 1 else 0)
  let p1 := if 255 < sum then flagInsert p CpuFlags.CARRY else flagRemove p CpuFlags.CARRY
  let result := wrap8 sum
  let p2 := if (value ^^^ result) &&& (result ^^^ register_a) &&& 0x80 ≠ 0 then
              flagInsert p1 CpuFlags.OVERFLOW
            else flagRemove p1 CpuFlags.OVERFLOW
  (update_zero_and_negative_flags p2 result, result)

end CPU

/-! ### Cartridges, `cartridges.rs` -/

inductive Mirroring where
  | Vertical
  | Horizontal
  | FourScreen
deriving DecidableEq, Repr

structure ROM where
  prg_rom : List Nat
  chr_rom : List Nat
  mapper : Nat
  screen_mirroring : Mirroring
deriving DecidableEq, Repr

def NES_TAG : List Nat := [0x4E, 0x45, 0x53, 0x1A]

def PRG_ROM_PAGE_SIZE : Nat := 16384

def CHR_ROM_PAGE_SIZE : Nat := 8192

/-- `ROM::new`.  `none` models a Rust panic from out-of-range (slice)
indexing; `some (Except.error _)` the two recoverable errors; the checks and
index accesses are performed in the source's order. -/
def ROM.new (d : List Nat) : Option (Except String ROM) :=
  if d.length < 4 then none
  else if d.take 4 ≠ NES_TAG then some (Except.error "File is not in iNES file format")
  else if d.length < 8 then none
  else
    let mapper := (d.getD 7 0 &&& 0xF0) ||| (d.getD 6 0 >>> 4)
    let ines_version := (d.getD 7 0 >>> 2) &&& 0b11
    if ines_version ≠ 0 then some (Except.error "NES2.0 format is not supported")
    else
      let four_screen := d.getD 6 0 &&& 0b1000 ≠ 0
      let vertical_mirroring := d.getD 6 0 &&& 0b1 ≠ 0
      let screen_mirroring :=
        if four_screen then Mirroring.FourScreen
        else if vertical_mirroring then Mirroring.Vertical
        else Mirroring.Horizontal
      let prg_rom_size := d.getD 4 0 * PRG_ROM_PAGE_SIZE
      let chr_rom_size := d.getD 5 0 * CHR_ROM_PAGE_SIZE
      let skip_trainer := d.getD 6 0 &&& 0b100 ≠ 0
      let prg_rom_start := 16 + (if skip_trainer then 512 else 0)
      let chr_rom_start := prg_rom_start + prg_rom_size
      if d.length < chr_rom_start + chr_rom_size then none
      else some (Except.ok
        { prg_rom := (d.drop prg_rom_start).take prg_rom_size
          chr_rom := (d.drop chr_rom_start).take chr_rom_size
          mapper := mapper
          screen_mirroring := screen_mirroring })

/-! ### PPU registers and state, `ppu.rs` -/

/-- `AddressRegister`. -/
structure AddressRegister where
  high : Nat
  low : Nat
  high_pointer : Bool
deriving Repr

namespace AddressRegister

def new : AddressRegister := { high := 0, low := 0, high_pointer := true }

/-- `AddressRegister::get`. -/
def get (a : AddressRegister) : Nat := (a.high <<< 8) ||| a.low

/-- `AddressRegister::set`. -/
def set (a : AddressRegister) (data : Nat) : AddressRegister :=
  { a with high := data >>> 8, low := data &&& 0xff }

/-- `AddressRegister::update`. -/
def update (a : AddressRegister) (data : Nat) : AddressRegister :=
  let a1 := if a.high_pointer then { a with high := data } else { a with low := data }
  let a2 := if 0x3fff < a1.get then a1.set (a1.get &&& 0x3fff) else a1
  { a2 with high_pointer := !a2.high_pointer }

/-- `AddressRegister::reset_latch`. -/
def reset_latch (a : AddressRegister) : AddressRegister := { a with high_pointer := true }

end AddressRegister

/-- `ScrollRegister`. -/
structure ScrollRegister where
  scroll_x : Nat
  scroll_y : Nat
  latch : Bool
deriving Repr

namespace ScrollRegister

def new : ScrollRegister := { scroll_x := 0, scroll_y := 0, latch := false }

/-- `ScrollRegister::write`. -/
def write (s : ScrollRegister) (data : Nat) : ScrollRegister :=
  let s1 := if !s.latch then { s with scroll_x := data } else { s with scroll_y := data }
  { s1 with latch := !s1.latch }

/-- `ScrollRegister::reset_latch`. -/
def reset_latch (s : ScrollRegister) : ScrollRegister := { s with latch := false }

end ScrollRegister

/-! `StatusRegister` bit positions. -/

namespace StatusFlags

def SPRITE_OVERFLOW : Nat := 0b00100000
def SPRITE_ZERO_HIT : Nat := 0b01000000
def VBLANK_STARTED : Nat := 0b10000000

end StatusFlags

/-- `StatusRegister::set_vblank_status`. -/
def setVblankStatus (s : Nat) (b : Bool) : Nat := flagSet s StatusFlags.VBLANK_STARTED b

/-- `StatusRegister::set_sprite_zero_hit`. -/
def setSpriteZeroHit (s : Nat) (b : Bool) : Nat := flagSet s StatusFlags.SPRITE_ZERO_HIT b

/-- `StatusRegister::reset_vblank_status`. -/
def resetVblankStatus (s : Nat) : Nat := flagRemove s StatusFlags.VBLANK_STARTED

/-- `StatusRegister::is_in_vblank`. -/
def isInVblank (s : Nat) : Bool := flagContains s StatusFlags.VBLANK_STARTED

/-- `ControlRegister::generate_vblank_nmi` (`contains(GENERATE_NMI)`, bit 7). -/
def generateVblankNmi (c : Nat) : Bool := flagContains c 0b10000000

/-- The PPU state, `ppu.rs`.  `control`, `mask` and `status` are the register
bytes; memories are modelled as functions from index to byte. -/
structure PPU where
  chr_rom : List Nat
  mirroring : Mirroring
  control : Nat
  mask : Nat
  status : Nat
  scroll : ScrollRegister
  address : AddressRegister
  vram : Nat → Nat
  oam_address : Nat
  oam_data : Nat → Nat
  palette_table : Nat → Nat
  internal_data_buf : Nat
  scanline : Nat
  cycles : Nat
  nmi_interrupt : Option Nat

namespace PPU

/-- `PPU::new`. -/
def new (chr_rom : List Nat) (mirroring : Mirroring) : PPU :=
  { chr_rom := chr_rom
    mirroring := mirroring
    control := 0
    mask := 0
    status := 0
    scroll := ScrollRegister.new
    address := AddressRegister.new
    vram := fun _ => 0
    oam_address := 0
    oam_data := fun _ => 0
    palette_table := fun _ => 0
    internal_data_buf := 0
    scanline := 0
    cycles := 0
    nmi_interrupt := none }

/-- `PPU::tick`.  Adds `c` dots; returns the new state and the
"frame complete" signal. -/
def tick (p : PPU) (c : Nat) : PPU × Bool :=
  let p1 : PPU := { p with cycles := p.cycles + c }
  if 341 ≤ p1.cycles then
    let p2 : PPU := { p1 with cycles := p1.cycles - 341, scanline := p1.scanline + 1 }
    let p3 : PPU :=
      if p2.scanline = 241 then
        { p2 with
          status := setSpriteZeroHit (setVblankStatus p2.status true) false
          nmi_interrupt := if generateVblankNmi p2.control then some 1 else p2.nmi_interrupt }
      else p2
    if 262 ≤ p3.scanline then
      ({ p3 with
          scanline := 0
          nmi_interrupt := none
          status := resetVblankStatus (setSpriteZeroHit p3.status false) }, true)
    else (p3, false)
  else (p1, false)

/-- `PPU::write_to_control`. -/
def write_to_control (p : PPU) (value : Nat) : PPU :=
  let before_nmi_status := generateVblankNmi p.control
  let p1 : PPU := { p with control := value }
  if !before_nmi_status && generateVblankNmi p1.control && isInVblank p1.status then
    { p1 with nmi_interrupt := some 1 }
  else p1

/-- `PPU::read_status`: returns the status byte read and the new state. -/
def read_status (p : PPU) : Nat × PPU :=
  (p.status,
   { p with
      status := resetVblankStatus p.status
      address := p.address.reset_latch
      scroll := p.scroll.reset_latch })

/-- `PPU::write_to_ppu_address`. -/
def write_to_ppu_address (p : PPU) (value : Nat) : PPU :=
  { p with address := p.address.update value }

/-- One iteration of the loop in `PPU::write_oam_dma`. -/
def dmaStep (p : PPU) (x : Nat) : PPU :=
  { p with
     oam_data := Function.update p.oam_data p.oam_address x
     oam_address := (p.oam_address + 1) % 256 }

/-- `PPU::write_oam_dma`: copy the buffer bytes in order into OAM starting
at `oam_address`, incrementing (with `u8` wraparound) after each byte. -/
def write_oam_dma (p : PPU) (data : List Nat) : PPU := data.foldl dmaStep p

end PPU

/-- The dot position of a PPU state within a frame. -/
def ppuPos (p : PPU) : Nat := p.scanline * 341 + p.cycles

/-- Run a sequence of `tick` calls; returns the final state and how many of
the calls returned `true` ("frame complete"). -/
def tickRun : PPU → List Nat → PPU × Nat
  | p, [] => (p, 0)
  | p, c :: l =>
    let r := PPU.tick p c
    let s := tickRun r.1 l
    (s.1, (if r.2 then 1 else 0) + s.2)

/-- The intermediate states after each `tick` call of a sequence. -/
def tickStates : PPU → List Nat → List PPU
  | _, [] => []
  | p, c :: l =>
    let r := PPU.tick p c
    r.1 :: tickStates r.1 l

/-- All PPU fields other than the two OAM fields, bundled for "rest of the
state is unchanged" statements. -/
def ppuRest (p : PPU) :=
  (p.chr_rom, p.mirroring, p.control, p.mask, p.status, p.scroll, p.address,
   p.vram, p.palette_table, p.internal_data_buf, p.scanline, p.cycles, p.nmi_interrupt)

/-! ## Flag-algebra helper lemmas -/

theorem or_and_right (a b c : Nat) : (a ||| b) &&& c = (a &&& c) ||| (b &&& c) :=
  Nat.eq_of_testBit_eq fun i => by
    simp only [Nat.testBit_and, Nat.testBit_or]
    cases a.testBit i <;> cases b.testBit i <;> cases c.testBit i <;> rfl

theorem or_and_self (p f : Nat) : (p ||| f) &&& f = f :=
  Nat.eq_of_testBit_eq fun i => by
    simp only [Nat.testBit_and, Nat.testBit_or]
    cases p.testBit i <;> cases f.testBit i <;> rfl

theorem flagContains_insert_self (p f : Nat) : flagContains (flagInsert p f) f = true := by
  unfold flagContains flagInsert
  rw [or_and_self]
  simp

theorem flagContains_insert_other (p g f : Nat) (h : g &&& f = 0) :
    flagContains (flagInsert p g) f = flagContains p f := by
  unfold flagContains flagInsert
  rw [or_and_right, h, Nat.or_zero]

theorem flagContains_remove_other (p g f : Nat) (h : (255 ^^^ g) &&& f = f) :
    flagContains (flagRemove p g) f = flagContains p f := by
  unfold flagContains flagRemove
  rw [Nat.and_assoc, h]

theorem flagContains_remove_self (p f : Nat) (h0 : (255 ^^^ f) &&& f = 0) (hf : f ≠ 0) :
    flagContains (flagRemove p f) f = false := by
  unfold flagContains flagRemove
  rw [Nat.and_assoc, h0, Nat.and_zero]
  exact beq_eq_false_iff_ne.mpr (Ne.symm hf)

theorem shiftRight7_eq_one_iff (x : Nat) (hx : x < 256) : x >>> 7 = 1 ↔ 128 ≤ x := by
  rw [Nat.shiftRight_eq_div_pow]
  norm_num
  omega

theorem updateZN_zero (p r : Nat) :
    flagContains (CPU.update_zero_and_negative_flags p r) CpuFlags.ZERO = decide (r = 0) := by
  unfold CPU.update_zero_and_negative_flags
  by_cases h0 : r = 0 <;> by_cases h7 : r >>> 7 = 1 <;>
    simp +decide [h0, h7, CpuFlags.ZERO, CpuFlags.NEGATIVE, flagContains_insert_self,
      flagContains_insert_other, flagContains_remove_other, flagContains_remove_self]

theorem updateZN_neg (p r : Nat) :
    flagContains (CPU.update_zero_and_negative_flags p r) CpuFlags.NEGATIVE
      = decide (r >>> 7 = 1) := by
  unfold CPU.update_zero_and_negative_flags
  by_cases h0 : r = 0 <;> by_cases h7 : r >>> 7 = 1 <;>
    simp +decide [h0, h7, CpuFlags.ZERO, CpuFlags.NEGATIVE, flagContains_insert_self,
      flagContains_insert_other, flagContains_remove_other, flagContains_remove_self]

theorem updateZN_carry (p r : Nat) :
    flagContains (CPU.update_zero_and_negative_flags p r) CpuFlags.CARRY
      = flagContains p CpuFlags.CARRY := by
  unfold CPU.update_zero_and_negative_flags
  by_cases h0 : r = 0 <;> by_cases h7 : r >>> 7 = 1 <;>
    simp +decide [h0, h7, CpuFlags.ZERO, CpuFlags.NEGATIVE, CpuFlags.CARRY,
      flagContains_insert_other, flagContains_remove_other]

theorem overflow_op_carry (q : Nat) (c : Prop) [Decidable c] :
    flagContains (if c then flagInsert q CpuFlags.OVERFLOW else flagRemove q CpuFlags.OVERFLOW)
      CpuFlags.CARRY = flagContains q CpuFlags.CARRY := by
  split <;>
    simp +decide [CpuFlags.OVERFLOW, CpuFlags.CARRY, flagContains_insert_other,
      flagContains_remove_other]

theorem updateZN_overflow (p r : Nat) :
    flagContains (CPU.update_zero_and_negative_flags p r) CpuFlags.OVERFLOW
      = flagContains p CpuFlags.OVERFLOW := by
  unfold CPU.update_zero_and_negative_flags
  by_cases h0 : r = 0 <;> by_cases h7 : r >>> 7 = 1 <;>
    simp +decide [h0, h7, CpuFlags.ZERO, CpuFlags.NEGATIVE, CpuFlags.OVERFLOW,
      flagContains_insert_other, flagContains_remove_other]

/-! ## Claims about the CPU -/

/-- Claim C1 (code bug).  The unofficial DCP opcode is specified as the
composition of the documented `dec` and `compare` primitives on the same
operand fetch: write back operand − 1, carry iff decremented value ≤
accumulator (cleared otherwise), zero/negative from accumulator −
decremented value.  The code instead computes `value.wrapping_sub(value)`
(always 0), so with operand byte 5 and accumulator 0 it writes 0 (flags
byte 3: carry and zero set) where the composition writes 4 (flags byte
128: carry cleared, negative set). -/
theorem dcp_deviates_from_dec_then_compare :
    CPU.dcp 0 0 5 = (0, 3) ∧
    CPU.dcp_as_dec_then_compare 0 0 5 = (4, 128) ∧
    CPU.dcp 0 0 5 ≠ CPU.dcp_as_dec_then_compare 0 0 5 := by
  decide

/-- Claim C2 (code bug).  The memory forms of ROL and ROR update only the
negative flag (`update_negative_flags`), never recomputing the zero flag:
rotating memory byte 0x80 left (carry clear) or byte 0x01 right (carry
clear) produces the value 0 with the zero flag still clear, although
`update_zero_and_negative_flags` — which the claim requires — would set the
zero flag for that value. -/
theorem rol_ror_memory_skip_zero_flag :
    (CPU.rol 0 0x80).1 = 0 ∧
    flagContains (CPU.rol 0 0x80).2 CpuFlags.ZERO = false ∧
    (CPU.ror 0 0x01).1 = 0 ∧
    flagContains (CPU.ror 0 0x01).2 CpuFlags.ZERO = false ∧
    flagContains
      (CPU.update_zero_and_negative_flags (CPU.rol 0 0x80).2 (CPU.rol 0 0x80).1)
      CpuFlags.ZERO = true := by
  decide

/-- Claim C3.  After `compare` (the body shared by CMP/CPX/CPY for every
addressing mode, with `value` the fetched memory operand and `compare_with`
the register), the carry flag is set iff operand ≤ register, and the zero
and negative flags come from the wrapping difference register − operand
(zero iff the difference is 0, negative iff its bit 7 is set). -/
theorem compare_flag_semantics (p value compare_with : Nat) :
    flagContains (CPU.compare p value compare_with) CpuFlags.CARRY
      = decide (value ≤ compare_with) ∧
    flagContains (CPU.compare p value compare_with) CpuFlags.ZERO
      = decide (wrappingSub8 compare_with value = 0) ∧
    flagContains (CPU.compare p value compare_with) CpuFlags.NEGATIVE
      = decide (128 ≤ wrappingSub8 compare_with value) := by
  unfold CPU.compare
  refine ⟨?_, ?_, ?_⟩
  · rw [updateZN_carry]
    by_cases h : value ≤ compare_with <;>
      simp +decide [h, CpuFlags.CARRY, flagContains_insert_self, flagContains_remove_self]
  · rw [updateZN_zero]
  · rw [updateZN_neg]
    have hlt : wrappingSub8 compare_with value < 256 := Nat.mod_lt _ (by norm_num)
    simp only [decide_eq_decide]
    exact shiftRight7_eq_one_iff _ hlt

/-- Claim C4 (amended).  `add_to_register_a` (the body of ADC) stores the
low 8 bits of accumulator + operand + carry-in, sets carry iff the full sum
exceeds 0xFF, and sets overflow iff bit 7 of
(operand XOR result) AND (result XOR original accumulator) is set; with
accumulator 0x50, operand 0x90 and carry clear it yields accumulator 0xE0
with carry clear and overflow **clear** (by that very formula). -/
theorem adc_semantics :
    (∀ p register_a value : Nat,
      (CPU.add_to_register_a p register_a value).2
        = wrap8 (register_a + value + (if flagContains p CpuFlags.CARRY then 1 else 0)) ∧
      flagContains (CPU.add_to_register_a p register_a value).1 CpuFlags.CARRY
        = decide (255 < register_a + value + (if flagContains p CpuFlags.CARRY then 1 else 0)) ∧
      flagContains (CPU.add_to_register_a p register_a value).1 CpuFlags.OVERFLOW
        = decide
            ((value ^^^ wrap8 (register_a + value + (if flagContains p CpuFlags.CARRY then 1 else 0)))
              &&& (wrap8 (register_a + value + (if flagContains p CpuFlags.CARRY then 1 else 0))
                    ^^^ register_a) &&& 0x80 ≠ 0)) ∧
    ((CPU.add_to_register_a 0 0x50 0x90).2 = 0xE0 ∧
     flagContains (CPU.add_to_register_a 0 0x50 0x90).1 CpuFlags.CARRY = false ∧
     flagContains (CPU.add_to_register_a 0 0x50 0x90).1 CpuFlags.OVERFLOW = false) := by
  constructor
  · intro p register_a value
    unfold CPU.add_to_register_a
    refine ⟨rfl, ?_, ?_⟩
    · rw [updateZN_carry, overflow_op_carry]
      split <;> split <;> rename_i h1 h2 <;>
        simp +decide [h2, CpuFlags.CARRY, flagContains_insert_self, flagContains_remove_self] <;>
        omega
    · rw [updateZN_overflow]
      split <;> split <;> rename_i h1 h2 <;>
        simp +decide [h2, CpuFlags.OVERFLOW, flagContains_insert_self, flagContains_remove_self] <;>
        first
        | omega
        | simpa using h2
  · decide

/-- Claim C4 counterexample.  The claim's example states that adding 0x90 to
accumulator 0x50 with carry clear sets the overflow flag; the code (matching
its own overflow formula) leaves it clear. -/
theorem adc_example_overflow_is_clear :
    (CPU.add_to_register_a 0 0x50 0x90).2 = 0xE0 ∧
    flagContains (CPU.add_to_register_a 0 0x50 0x90).1 CpuFlags.CARRY = false ∧
    flagContains (CPU.add_to_register_a 0 0x50 0x90).1 CpuFlags.OVERFLOW = false := by
  decide

/-! ## Claims about cartridge parsing -/

/-- Claim C8.  Cartridge parsing returns a recoverable error when the first
four bytes differ from the magic tag, or when bits 2-3 of header byte 7 are
non-zero; on success the mirroring mode is derived from header byte 6
(four-screen if bit 3, else vertical if bit 0, else horizontal), the
program-ROM size is byte 4 × 16KB, the graphics-ROM size byte 5 × 8KB, and
program data starts 16 bytes in plus 512 further bytes when byte 6 bit 2 is
set. -/
theorem rom_new_header_semantics (d : List Nat) :
    (4 ≤ d.length → d.take 4 ≠ NES_TAG →
      ROM.new d = some (Except.error "File is not in iNES file format")) ∧
    (8 ≤ d.length → d.take 4 = NES_TAG → (d.getD 7 0 >>> 2) &&& 3 ≠ 0 →
      ROM.new d = some (Except.error "NES2.0 format is not supported")) ∧
    (∀ rom : ROM, ROM.new d = some (Except.ok rom) →
      rom.screen_mirroring =
        (if d.getD 6 0 &&& 8 ≠ 0 then Mirroring.FourScreen
         else if d.getD 6 0 &&& 1 ≠ 0 then Mirroring.Vertical
         else Mirroring.Horizontal) ∧
      rom.prg_rom.length = d.getD 4 0 * 16384 ∧
      rom.chr_rom.length = d.getD 5 0 * 8192 ∧
      (∀ i, i < d.getD 4 0 * 16384 →
        rom.prg_rom[i]? = d[16 + (if d.getD 6 0 &&& 4 ≠ 0 then 512 else 0) + i]?)) := by
  refine ⟨?_, ?_, ?_⟩
  · intro h4 htag
    simp only [ROM.new]
    rw [if_neg (by omega), if_pos htag]
  · intro h8 htag hver
    simp only [ROM.new]
    rw [if_neg (by omega), if_neg (fun hne => hne htag), if_neg (by omega), if_pos hver]
  · intro rom h
    simp only [ROM.new, PRG_ROM_PAGE_SIZE, CHR_ROM_PAGE_SIZE] at h
    by_cases h1 : d.length < 4
    · rw [if_pos h1] at h
      exact absurd h (by simp)
    rw [if_neg h1] at h
    by_cases h2 : d.take 4 ≠ NES_TAG
    · rw [if_pos h2] at h
      exact absurd h (by simp)
    rw [if_neg h2] at h
    by_cases h3 : d.length < 8
    · rw [if_pos h3] at h
      exact absurd h (by simp)
    rw [if_neg h3] at h
    by_cases h4 : (d.getD 7 0 >>> 2) &&& 3 ≠ 0
    · rw [if_pos h4] at h
      exact absurd h (by simp)
    rw [if_neg h4] at h
    by_cases h5 : d.length <
        16 + (if d.getD 6 0 &&& 4 ≠ 0 then 512 else 0) + d.getD 4 0 * 16384 + d.getD 5 0 * 8192
    · rw [if_pos h5] at h
      exact absurd h (by simp)
    rw [if_neg h5] at h
    simp only [Option.some.injEq, Except.ok.injEq] at h
    subst h
    set t := (if d.getD 6 0 &&& 4 ≠ 0 then 512 else 0) with ht
    refine ⟨rfl, ?_, ?_, ?_⟩
    · simp only [List.length_take, List.length_drop]
      omega
    · simp only [List.length_take, List.length_drop]
      omega
    · intro i hi
      simp only
      rw [List.getElem?_take_of_lt hi, List.getElem?_drop]

theorem rom_new_header_semantics_witness :
    ROM.new [0, 0, 0, 0] = some (Except.error "File is not in iNES file format") ∧
    ROM.new [78, 69, 83, 26, 0, 0, 0, 4] = some (Except.error "NES2.0 format is not supported") ∧
    ({ prg_rom := [], chr_rom := [], mapper := 0,
       screen_mirroring := Mirroring.Horizontal } : ROM).prg_rom.length
      = ([78, 69, 83, 26, 0, 0, 0, 0, 0, 0, 0, 0, 0, 0, 0, 0] : List Nat).getD 4 0 * 16384 :=
  ⟨(rom_new_header_semantics [0, 0, 0, 0]).1 (by decide) (by decide),
   (rom_new_header_semantics [78, 69, 83, 26, 0, 0, 0, 4]).2.1 (by decide) (by decide) (by decide),
   ((rom_new_header_semantics [78, 69, 83, 26, 0, 0, 0, 0, 0, 0, 0, 0, 0, 0, 0, 0]).2.2
      { prg_rom := [], chr_rom := [], mapper := 0,
        screen_mirroring := Mirroring.Horizontal } rfl).2.1⟩

/-- Claim C9 counterexample.  The claim states that parsing panics for
every input shorter than 16 bytes; but the 4-byte input `[0,0,0,0]` is
shorter than 16 bytes and parsing returns the recoverable wrong-magic
error instead of panicking. -/
theorem rom_new_short_input_without_panic :
    ([0, 0, 0, 0] : List Nat).length < 16 ∧
    ROM.new [0, 0, 0, 0] = some (Except.error "File is not in iNES file format") :=
  ⟨by decide, rfl⟩

/-- Claim C9 (amended).  `ROM::new` is not total: it panics (`none`, via
out-of-range indexing) exactly for inputs shorter than 4 bytes, for inputs
with a valid magic tag shorter than 8 bytes, and for inputs passing the
magic and version checks whose total length is less than the
header-declared program-ROM start (16, plus 512 when the trainer flag is
set) plus program-ROM plus graphics-ROM sizes; it returns a recoverable
`Err` exactly for a wrong magic tag (length ≥ 4) or a non-zero
format-version field (length ≥ 8 with the magic tag valid). -/
theorem rom_new_partiality (d : List Nat) :
    (ROM.new d = none ↔
      d.length < 4 ∨
      (d.take 4 = NES_TAG ∧ d.length < 8) ∨
      (d.take 4 = NES_TAG ∧ 8 ≤ d.length ∧ (d.getD 7 0 >>> 2) &&& 3 = 0 ∧
        d.length < 16 + (if d.getD 6 0 &&& 4 ≠ 0 then 512 else 0)
          + d.getD 4 0 * 16384 + d.getD 5 0 * 8192)) ∧
    ((∃ msg, ROM.new d = some (Except.error msg)) ↔
      (4 ≤ d.length ∧ d.take 4 ≠ NES_TAG) ∨
      (8 ≤ d.length ∧ d.take 4 = NES_TAG ∧ (d.getD 7 0 >>> 2) &&& 3 ≠ 0)) := by
  simp only [ROM.new, PRG_ROM_PAGE_SIZE, CHR_ROM_PAGE_SIZE]
  by_cases h1 : d.length < 4
  · simp only [if_pos h1]
    refine ⟨iff_of_true trivial (Or.inl h1), iff_of_false (by simp) ?_⟩
    rintro (⟨h, _⟩ | ⟨h, _, _⟩) <;> omega
  simp only [if_neg h1]
  by_cases h2 : d.take 4 ≠ NES_TAG
  · simp only [if_pos h2]
    refine ⟨iff_of_false (by simp) ?_, iff_of_true ⟨_, rfl⟩ (Or.inl ⟨by omega, h2⟩)⟩
    rintro (h | ⟨h, _⟩ | ⟨h, _, _⟩)
    · omega
    · exact h2 h
    · exact h2 h
  simp only [if_neg h2]
  have htag : d.take 4 = NES_TAG := not_not.mp h2
  by_cases h3 : d.length < 8
  · simp only [if_pos h3]
    refine ⟨iff_of_true trivial (Or.inr (Or.inl ⟨htag, h3⟩)), iff_of_false (by simp) ?_⟩
    rintro (⟨_, hne⟩ | ⟨h, _, _⟩)
    · exact hne htag
    · omega
  simp only [if_neg h3]
  by_cases h4 : (d.getD 7 0 >>> 2) &&& 3 ≠ 0
  · simp only [if_pos h4]
    refine ⟨iff_of_false (by simp) ?_, iff_of_true ⟨_, rfl⟩ (Or.inr ⟨by omega, htag, h4⟩)⟩
    rintro (h | ⟨_, h⟩ | ⟨_, _, hv, _⟩)
    · omega
    · omega
    · exact h4 hv
  simp only [if_neg h4]
  have hver : (d.getD 7 0 >>> 2) &&& 3 = 0 := not_not.mp h4
  by_cases h5 : d.length <
      16 + (if d.getD 6 0 &&& 4 ≠ 0 then 512 else 0) + d.getD 4 0 * 16384 + d.getD 5 0 * 8192
  · simp only [if_pos h5]
    refine ⟨iff_of_true trivial (Or.inr (Or.inr ⟨htag, by omega, hver, h5⟩)),
      iff_of_false (by simp) ?_⟩
    rintro (⟨_, hne⟩ | ⟨_, _, hv⟩)
    · exact hne htag
    · exact h4 hv
  simp only [if_neg h5]
  refine ⟨iff_of_false (by simp) ?_, iff_of_false (by simp) ?_⟩
  · rintro (h | ⟨_, h⟩ | ⟨_, _, _, h⟩)
    · omega
    · omega
    · exact h5 h
  · rintro (⟨_, hne⟩ | ⟨_, _, hv⟩)
    · exact hne htag
    · exact h4 hv

/-! ## PPU helper lemmas -/

theorem testBit_of_lt_256 (x i : Nat) (hx : x < 256) (hi : 8 ≤ i) : x.testBit i = false := by
  apply Nat.testBit_lt_two_pow
  have h2 : (2 : Nat) ^ 8 ≤ 2 ^ i := Nat.pow_le_pow_right (by norm_num) hi
  have h3 : (256 : Nat) ≤ 2 ^ i := by simpa using h2
  omega

theorem and255_lt_256 (x : Nat) : x &&& 255 < 256 := by
  have h : x &&& 255 < 2 ^ 8 := Nat.and_lt_two_pow x (by norm_num)
  simpa using h

theorem mask14_low (v low : Nat) (h : low < 256) :
    (((v <<< 8) ||| low) &&& 16383) &&& 255 = low := by
  refine Nat.eq_of_testBit_eq fun i => ?_
  rw [show (16383 : Nat) = 2 ^ 14 - 1 by norm_num, show (255 : Nat) = 2 ^ 8 - 1 by norm_num]
  simp only [Nat.testBit_and, Nat.testBit_or, Nat.testBit_shiftLeft,
    Nat.testBit_two_pow_sub_one]
  by_cases hi : i < 8
  · have h14 : i < 14 := by omega
    have h8 : ¬ 8 ≤ i := by omega
    simp [hi, h14, h8]
  · have hlow : low.testBit i = false := testBit_of_lt_256 low i h (by omega)
    simp [hi, hlow]

theorem mask14_high (v low : Nat) (h : low < 256) :
    (((v <<< 8) ||| low) &&& 16383) >>> 8 = v &&& 63 := by
  refine Nat.eq_of_testBit_eq fun i => ?_
  rw [show (16383 : Nat) = 2 ^ 14 - 1 by norm_num, show (63 : Nat) = 2 ^ 6 - 1 by norm_num]
  simp only [Nat.testBit_shiftRight, Nat.testBit_and, Nat.testBit_or, Nat.testBit_shiftLeft,
    Nat.testBit_two_pow_sub_one]
  have hlow : low.testBit (8 + i) = false := testBit_of_lt_256 low (8 + i) h (by omega)
  have h8 : 8 ≤ 8 + i := by omega
  have hsub : 8 + i - 8 = i := by omega
  by_cases hi : i < 6
  · have h14 : 8 + i < 14 := by omega
    simp [hlow, h8, hsub, hi, h14]
  · have h14 : ¬ 8 + i < 14 := by omega
    simp [hlow, h8, hsub, hi, h14]

theorem addr_update_low_lt (a : AddressRegister) (d : Nat) (h : a.low < 256) (hd : d < 256) :
    (a.update d).low < 256 := by
  simp only [AddressRegister.update, AddressRegister.set, AddressRegister.get]
  split_ifs <;> simp only <;> first | exact h | exact hd | exact and255_lt_256 _

theorem addr_update_from_high (ar : AddressRegister) (v : Nat) (hp : ar.high_pointer = true)
    (hl : ar.low < 256) :
    (ar.update v).high_pointer = false ∧
    (ar.update v).low = ar.low ∧
    (ar.update v).high = (if 0x3fff < (v <<< 8) ||| ar.low then v &&& 0x3f else v) := by
  simp only [AddressRegister.update, AddressRegister.set, AddressRegister.get, hp, if_true]
  split_ifs with hm
  · refine ⟨by simp [hp], ?_, ?_⟩
    · exact mask14_low v ar.low hl
    · exact mask14_high v ar.low hl
  · exact ⟨by simp [hp], rfl, rfl⟩

/-! ## Claims about the PPU registers -/

/-- Claim C6.  Reading the status register returns the current status byte,
then clears the vblank-started bit and resets both the VRAM-address write
toggle and the scroll write toggle; consequently, after two consecutive
address-register writes followed by a status-register read, a third
address-register write is treated as a high-byte write again: it toggles
the latch off, leaves the low byte unchanged, and stores the written value
into the high byte (masked to 6 bits when the resulting address exceeds the
14-bit range). -/
theorem read_status_latch_semantics (p : PPU) (a b v : Nat)
    (hlow : p.address.low < 256) (ha : a < 256) (hb : b < 256) :
    (PPU.read_status p).1 = p.status ∧
    isInVblank (PPU.read_status p).2.status = false ∧
    (PPU.read_status p).2.address.high_pointer = true ∧
    (PPU.read_status p).2.scroll.latch = false ∧
    (PPU.read_status ((p.write_to_ppu_address a).write_to_ppu_address b)).2.address.high_pointer
      = true ∧
    (((PPU.read_status ((p.write_to_ppu_address a).write_to_ppu_address b)).2.write_to_ppu_address
        v).address.high_pointer = false ∧
     ((PPU.read_status ((p.write_to_ppu_address a).write_to_ppu_address b)).2.write_to_ppu_address
        v).address.low
       = (PPU.read_status ((p.write_to_ppu_address a).write_to_ppu_address b)).2.address.low ∧
     ((PPU.read_status ((p.write_to_ppu_address a).write_to_ppu_address b)).2.write_to_ppu_address
        v).address.high
       = (if 0x3fff <
            (v <<< 8) |||
              (PPU.read_status ((p.write_to_ppu_address a).write_to_ppu_address b)).2.address.low
          then v &&& 0x3f else v)) := by
  have hl2 : ((p.write_to_ppu_address a).write_to_ppu_address b).address.low < 256 := by
    show ((p.address.update a).update b).low < 256
    exact addr_update_low_lt _ b (addr_update_low_lt p.address a hlow ha) hb
  have hl3 :
      (PPU.read_status ((p.write_to_ppu_address a).write_to_ppu_address b)).2.address.low
        < 256 := hl2
  have hq :
      (PPU.read_status ((p.write_to_ppu_address a).write_to_ppu_address b)).2.address.high_pointer
        = true := rfl
  have hup := addr_update_from_high
    (PPU.read_status ((p.write_to_ppu_address a).write_to_ppu_address b)).2.address v hq hl3
  refine ⟨rfl, ?_, rfl, rfl, rfl, hup.1, hup.2.1, hup.2.2⟩
  exact flagContains_remove_self _ _ (by decide) (by decide)

theorem read_status_latch_semantics_witness :
    (PPU.new [] Mirroring.Horizontal).address.low < 256 ∧
    ((PPU.read_status (PPU.new [] Mirroring.Horizontal)).1
        = (PPU.new [] Mirroring.Horizontal).status ∧
     isInVblank (PPU.read_status (PPU.new [] Mirroring.Horizontal)).2.status = false ∧
     (PPU.read_status (PPU.new [] Mirroring.Horizontal)).2.address.high_pointer = true ∧
     (PPU.read_status (PPU.new [] Mirroring.Horizontal)).2.scroll.latch = false ∧
     (PPU.read_status (((PPU.new [] Mirroring.Horizontal).write_to_ppu_address
          33).write_to_ppu_address 35)).2.address.high_pointer = true ∧
     (((PPU.read_status (((PPU.new [] Mirroring.Horizontal).write_to_ppu_address
            33).write_to_ppu_address 35)).2.write_to_ppu_address 36).address.high_pointer = false ∧
      ((PPU.read_status (((PPU.new [] Mirroring.Horizontal).write_to_ppu_address
            33).write_to_ppu_address 35)).2.write_to_ppu_address 36).address.low
        = (PPU.read_status (((PPU.new [] Mirroring.Horizontal).write_to_ppu_address
            33).write_to_ppu_address 35)).2.address.low ∧
      ((PPU.read_status (((PPU.new [] Mirroring.Horizontal).write_to_ppu_address
            33).write_to_ppu_address 35)).2.write_to_ppu_address 36).address.high
        = (if 0x3fff <
             (36 <<< 8) |||
               (PPU.read_status (((PPU.new [] Mirroring.Horizontal).write_to_ppu_address
                   33).write_to_ppu_address 35)).2.address.low
           then 36 &&& 0x3f else 36))) :=
  ⟨by decide,
   read_status_latch_semantics (PPU.new [] Mirroring.Horizontal) 33 35 36
     (by decide) (by decide) (by decide)⟩

/-- Claim C7.  Writing the control register replaces the control byte, and
it makes an interrupt request pending exactly when the NMI-enable bit was
clear before the write, is set in the written value, and the vblank-started
status bit is set; in every other case the pending-interrupt field is
unchanged (no new request is raised). -/
theorem write_to_control_nmi_semantics (p : PPU) (v : Nat) :
    (PPU.write_to_control p v).control = v ∧
    (PPU.write_to_control p v).nmi_interrupt =
      (if (!generateVblankNmi p.control && generateVblankNmi v && isInVblank p.status) = true
       then some 1 else p.nmi_interrupt) := by
  simp only [PPU.write_to_control]
  constructor
  · split <;> rfl
  · split <;> rfl

/-! ## Claim C10: OAM DMA -/

theorem dma_foldl_addr (vs : List Nat) :
    ∀ p : PPU, p.oam_address < 256 →
      (PPU.write_oam_dma p vs).oam_address = (p.oam_address + vs.length) % 256 := by
  induction vs with
  | nil =>
    intro p hp
    simp only [PPU.write_oam_dma, List.foldl_nil, List.length_nil, Nat.add_zero]
    omega
  | cons v vs ih =>
    intro p hp
    have hstep : (PPU.dmaStep p v).oam_address < 256 := by
      simp only [PPU.dmaStep]
      omega
    have h1 : PPU.write_oam_dma p (v :: vs) = PPU.write_oam_dma (PPU.dmaStep p v) vs := rfl
    rw [h1, ih (PPU.dmaStep p v) hstep]
    simp only [PPU.dmaStep, List.length_cons]
    omega

theorem dma_foldl_untouched (vs : List Nat) :
    ∀ (p : PPU) (j : Nat), p.oam_address < 256 →
      (∀ k, k < vs.length → j ≠ (p.oam_address + k) % 256) →
      (PPU.write_oam_dma p vs).oam_data j = p.oam_data j := by
  induction vs with
  | nil => intro p j _ _; rfl
  | cons v vs ih =>
    intro p j hp hj
    have hstep : (PPU.dmaStep p v).oam_address < 256 := by
      simp only [PPU.dmaStep]
      omega
    have h1 : PPU.write_oam_dma p (v :: vs) = PPU.write_oam_dma (PPU.dmaStep p v) vs := rfl
    rw [h1, ih (PPU.dmaStep p v) j hstep ?_]
    · simp only [PPU.dmaStep]
      refine Function.update_noteq ?_ v p.oam_data
      have h0 := hj 0 (by simp)
      simpa [Nat.mod_eq_of_lt hp] using h0
    · intro k hk
      have hk1 := hj (k + 1) (by simp only [List.length_cons]; omega)
      simp only [PPU.dmaStep]
      have heq : ((p.oam_address + 1) % 256 + k) % 256 = (p.oam_address + (k + 1)) % 256 := by
        omega
      rw [heq]
      exact hk1

theorem dma_foldl_get (vs : List Nat) :
    ∀ (p : PPU) (k : Nat), k < vs.length → vs.length ≤ 256 → p.oam_address < 256 →
      (PPU.write_oam_dma p vs).oam_data ((p.oam_address + k) % 256) = vs.getD k 0 := by
  induction vs with
  | nil =>
    intro p k hk _ _
    simp at hk
  | cons v vs ih =>
    intro p k hk hlen hp
    have hstep : (PPU.dmaStep p v).oam_address < 256 := by
      simp only [PPU.dmaStep]
      omega
    have h1 : PPU.write_oam_dma p (v :: vs) = PPU.write_oam_dma (PPU.dmaStep p v) vs := rfl
    cases k with
    | zero =>
      have hcell : (p.oam_address + 0) % 256 = p.oam_address := by omega
      rw [hcell, h1, dma_foldl_untouched vs (PPU.dmaStep p v) p.oam_address hstep ?_]
      · simp only [PPU.dmaStep, List.getD_cons_zero]
        exact Function.update_same p.oam_address v p.oam_data
      · intro k' hk'
        have hk255 : k' < 255 := by
          simp only [List.length_cons] at hlen
          omega
        simp only [PPU.dmaStep]
        omega
    | succ k =>
      have heq : (p.oam_address + (k + 1)) % 256 = ((p.oam_address + 1) % 256 + k) % 256 := by
        omega
      rw [heq, h1, List.getD_cons_succ]
      have hres := ih (PPU.dmaStep p v) k (by simp only [List.length_cons] at hk; omega)
        (by simp only [List.length_cons] at hlen; omega) hstep
      simpa only [PPU.dmaStep] using hres

theorem dma_rest (vs : List Nat) : ∀ p : PPU, ppuRest (PPU.write_oam_dma p vs) = ppuRest p := by
  induction vs with
  | nil => intro p; rfl
  | cons v vs ih =>
    intro p
    have h1 : PPU.write_oam_dma p (v :: vs) = PPU.write_oam_dma (PPU.dmaStep p v) vs := rfl
    rw [h1, ih (PPU.dmaStep p v)]
    rfl

/-- Claim C10.  For every starting `oam_address` (a byte) and every 256-byte
buffer, the OAM DMA transfer writes buffer byte i into sprite memory at
index (oam_address + i) mod 256 for every i in 0..256 — covering each of the
256 sprite-memory cells exactly once — after the transfer `oam_address` has
wrapped around to its starting value, and every other PPU field is
unchanged. -/
theorem write_oam_dma_semantics (p : PPU) (data : List Nat)
    (hlen : data.length = 256) (hp : p.oam_address < 256) :
    (PPU.write_oam_dma p data).oam_address = p.oam_address ∧
    (∀ i, i < 256 →
      (PPU.write_oam_dma p data).oam_data ((p.oam_address + i) % 256) = data.getD i 0) ∧
    ppuRest (PPU.write_oam_dma p data) = ppuRest p := by
  refine ⟨?_, ?_, dma_rest data p⟩
  · rw [dma_foldl_addr data p hp, hlen]
    omega
  · intro i hi
    exact dma_foldl_get data p i (by omega) (by omega) hp

theorem write_oam_dma_semantics_witness :
    (List.replicate 256 7).length = 256 ∧
    (PPU.new [] Mirroring.Horizontal).oam_address < 256 ∧
    ((PPU.write_oam_dma (PPU.new [] Mirroring.Horizontal) (List.replicate 256 7)).oam_address
        = (PPU.new [] Mirroring.Horizontal).oam_address ∧
     (∀ i, i < 256 →
       (PPU.write_oam_dma (PPU.new [] Mirroring.Horizontal) (List.replicate 256 7)).oam_data
           (((PPU.new [] Mirroring.Horizontal).oam_address + i) % 256)
         = (List.replicate 256 7).getD i 0) ∧
     ppuRest (PPU.write_oam_dma (PPU.new [] Mirroring.Horizontal) (List.replicate 256 7))
       = ppuRest (PPU.new [] Mirroring.Horizontal)) :=
  ⟨by decide, by decide,
   write_oam_dma_semantics (PPU.new [] Mirroring.Horizontal) (List.replicate 256 7)
     (by decide) (by decide)⟩

/-! ## Claim C5: the PPU frame state machine -/

theorem isInVblank_set241 (s : Nat) :
    isInVblank (setSpriteZeroHit (setVblankStatus s true) false) = true := by
  show flagContains (flagRemove (flagInsert s 128) 64) 128 = true
  rw [flagContains_remove_other _ _ _ (by decide), flagContains_insert_self]

theorem vblank_after_wrap (s : Nat) :
    isInVblank (resetVblankStatus (setSpriteZeroHit s false)) = false := by
  show flagContains (flagRemove (flagRemove s 64) 128) 128 = false
  exact flagContains_remove_self _ _ (by decide) (by decide)

theorem sz_after_wrap (s : Nat) :
    flagContains (resetVblankStatus (setSpriteZeroHit s false)) StatusFlags.SPRITE_ZERO_HIT
      = false := by
  show flagContains (flagRemove (flagRemove s 64) 128) 64 = false
  rw [flagContains_remove_other _ _ _ (by decide)]
  exact flagContains_remove_self _ _ (by decide) (by decide)

theorem tick_eq_no_cross (p : PPU) (c : Nat) (h : p.cycles + c < 341) :
    PPU.tick p c = ({ p with cycles := p.cycles + c }, false) := by
  have hn : ¬ 341 ≤ p.cycles + c := by omega
  simp [PPU.tick, hn]

theorem tick_eq_241 (p : PPU) (c : Nat) (hA : 341 ≤ p.cycles + c)
    (hB : p.scanline + 1 = 241) :
    PPU.tick p c =
      ({ p with
          cycles := p.cycles + c - 341
          scanline := p.scanline + 1
          status := setSpriteZeroHit (setVblankStatus p.status true) false
          nmi_interrupt :=
            if generateVblankNmi p.control then some 1 else p.nmi_interrupt },
        false) := by
  have hC : ¬ 262 ≤ p.scanline + 1 := by omega
  simp [PPU.tick, hA, hB, hC]

theorem tick_eq_wrap (p : PPU) (c : Nat) (hA : 341 ≤ p.cycles + c)
    (hB : p.scanline + 1 ≠ 241) (hC : 262 ≤ p.scanline + 1) :
    PPU.tick p c =
      ({ p with
          cycles := p.cycles + c - 341
          scanline := 0
          status := resetVblankStatus (setSpriteZeroHit p.status false)
          nmi_interrupt := none }, true) := by
  simp [PPU.tick, hA, hB, hC]

theorem tick_eq_cross (p : PPU) (c : Nat) (hA : 341 ≤ p.cycles + c)
    (hB : p.scanline + 1 ≠ 241) (hC : ¬ 262 ≤ p.scanline + 1) :
    PPU.tick p c =
      ({ p with cycles := p.cycles + c - 341, scanline := p.scanline + 1 }, false) := by
  simp [PPU.tick, hA, hB, hC]

theorem tickRun_cons (p : PPU) (c : Nat) (l : List Nat) :
    tickRun p (c :: l) =
      ((tickRun (PPU.tick p c).1 l).1,
        (if (PPU.tick p c).2 then 1 else 0) + (tickRun (PPU.tick p c).1 l).2) := rfl

theorem tickStates_cons (p : PPU) (c : Nat) (l : List Nat) :
    tickStates p (c :: l) = (PPU.tick p c).1 :: tickStates (PPU.tick p c).1 l := rfl

theorem tickRun_zeros (l : List Nat) :
    ∀ p : PPU, (∀ x ∈ l, x = 0) → p.cycles = 0 →
      tickRun p l = (p, 0) ∧ tickStates p l = List.replicate l.length p := by
  induction l with
  | nil => intro p _ _; exact ⟨rfl, rfl⟩
  | cons c l ih =>
    intro p hz h0
    have hc0 : c = 0 := hz c (by simp)
    have htick : PPU.tick p c = (p, false) := by
      subst hc0
      rw [tick_eq_no_cross p 0 (by omega)]
      obtain ⟨f1, f2, f3, f4, f5, f6, f7, f8, f9, f10, f11, f12, f13, f14, f15⟩ := p
      simp
    have htail := ih p (fun x hx => hz x (by simp [hx])) h0
    rw [tickRun_cons, tickStates_cons, htick]
    refine ⟨?_, ?_⟩
    · rw [htail.1]
      rfl
    · rw [htail.2, List.length_cons, List.replicate_succ]

theorem tickRun_inv (l : List Nat) :
    ∀ p : PPU, p.cycles < 341 → p.scanline < 262 →
      (241 ≤ p.scanline → isInVblank p.status = true) →
      (∀ c ∈ l, c ≤ 341) →
      ppuPos p + l.sum = 341 * 262 →
      (tickRun p l).2 = 1 ∧
      (∀ q ∈ tickStates p l, 241 ≤ q.scanline → isInVblank q.status = true) ∧
      (tickRun p l).1.scanline = 0 ∧
      (tickRun p l).1.cycles = 0 ∧
      isInVblank (tickRun p l).1.status = false ∧
      flagContains (tickRun p l).1.status StatusFlags.SPRITE_ZERO_HIT = false ∧
      (tickRun p l).1.nmi_interrupt = none := by
  induction l with
  | nil =>
    intro p h1 h2 hv hb hsum
    exfalso
    unfold ppuPos at hsum
    simp only [List.sum_nil, Nat.add_zero] at hsum
    omega
  | cons c l ih =>
    intro p h1 h2 hv hb hsum
    have hc : c ≤ 341 := hb c (by simp)
    have hb' : ∀ x ∈ l, x ≤ 341 := fun x hx => hb x (by simp [hx])
    have hsum' : ppuPos p + (c + l.sum) = 341 * 262 := by
      simpa [List.sum_cons] using hsum
    by_cases hA : 341 ≤ p.cycles + c
    · by_cases hB : p.scanline + 1 = 241
      · rw [tickRun_cons, tickStates_cons, tick_eq_241 p c hA hB]
        dsimp only
        obtain ⟨ih1, ih2, ih3, ih4, ih5, ih6, ih7⟩ := ih
          { p with
            cycles := p.cycles + c - 341
            scanline := p.scanline + 1
            status := setSpriteZeroHit (setVblankStatus p.status true) false
            nmi_interrupt :=
              if generateVblankNmi p.control then some 1 else p.nmi_interrupt }
          (by show p.cycles + c - 341 < 341; omega)
          (by show p.scanline + 1 < 262; omega)
          (fun _ => isInVblank_set241 p.status)
          hb'
          (by show (p.scanline + 1) * 341 + (p.cycles + c - 341) + l.sum = 341 * 262
              unfold ppuPos at hsum'
              omega)
        refine ⟨by simpa using ih1, ?_, ih3, ih4, ih5, ih6, ih7⟩
        intro q hq
        rcases List.mem_cons.mp hq with rfl | hq2
        · intro h241q
          exact isInVblank_set241 p.status
        · exact ih2 q hq2
      · by_cases hC : 262 ≤ p.scanline + 1
        · rw [tickRun_cons, tickStates_cons, tick_eq_wrap p c hA hB hC]
          dsimp only
          have hs261 : p.scanline = 261 := by omega
          have hkey : p.cycles + c = 341 ∧ l.sum = 0 := by
            unfold ppuPos at hsum'
            rw [hs261] at hsum'
            omega
          have hz : ∀ x ∈ l, x = 0 := by
            intro x hx
            have hle : x ≤ l.sum := List.single_le_sum (fun y _ => Nat.zero_le y) x hx
            omega
          have hzr := tickRun_zeros l
            { p with
              cycles := p.cycles + c - 341
              scanline := 0
              status := resetVblankStatus (setSpriteZeroHit p.status false)
              nmi_interrupt := none }
            hz (by show p.cycles + c - 341 = 0; omega)
          rw [hzr.1, hzr.2]
          refine ⟨rfl, ?_, rfl, by show p.cycles + c - 341 = 0; omega,
            vblank_after_wrap p.status, sz_after_wrap p.status, rfl⟩
          intro q hq
          rcases List.mem_cons.mp hq with rfl | hq2
          · intro h241q
            have h241q2 : (241 : Nat) ≤ 0 := h241q
            omega
          · have hqe := List.eq_of_mem_replicate hq2
            subst hqe
            intro h241q
            have h241q2 : (241 : Nat) ≤ 0 := h241q
            omega
        · rw [tickRun_cons, tickStates_cons, tick_eq_cross p c hA hB hC]
          dsimp only
          obtain ⟨ih1, ih2, ih3, ih4, ih5, ih6, ih7⟩ := ih
            { p with cycles := p.cycles + c - 341, scanline := p.scanline + 1 }
            (by show p.cycles + c - 341 < 341; omega)
            (by show p.scanline + 1 < 262; omega)
            (by intro h241q
                have h241q2 : 241 ≤ p.scanline + 1 := h241q
                show isInVblank p.status = true
                exact hv (by omega))
            hb'
            (by show (p.scanline + 1) * 341 + (p.cycles + c - 341) + l.sum = 341 * 262
                unfold ppuPos at hsum'
                omega)
          refine ⟨by simpa using ih1, ?_, ih3, ih4, ih5, ih6, ih7⟩
          intro q hq
          rcases List.mem_cons.mp hq with rfl | hq2
          · intro h241q
            have h241q2 : 241 ≤ p.scanline + 1 := h241q
            show isInVblank p.status = true
            exact hv (by omega)
          · exact ih2 q hq2
    · rw [tickRun_cons, tickStates_cons, tick_eq_no_cross p c (by omega)]
      dsimp only
      obtain ⟨ih1, ih2, ih3, ih4, ih5, ih6, ih7⟩ := ih
        { p with cycles := p.cycles + c }
        (by show p.cycles + c < 341; omega)
        (by show p.scanline < 262; exact h2)
        (by intro h241q
            exact hv h241q)
        hb'
        (by show p.scanline * 341 + (p.cycles + c) + l.sum = 341 * 262
            unfold ppuPos at hsum'
            omega)
      refine ⟨by simpa using ih1, ?_, ih3, ih4, ih5, ih6, ih7⟩
      intro q hq
      rcases List.mem_cons.mp hq with rfl | hq2
      · intro h241q
        exact hv h241q
      · exact ih2 q hq2

/-- Claim C5.  Starting the PPU at scanline 0 with dot counter 0 and
advancing it by `tick` calls totalling exactly 341 × 262 dots (each call
adding at most 341 dots): the frame-complete signal (`tick` returning
`true`) occurs exactly once over the sequence, every intermediate state
whose scanline counter is 241 has the vblank-started status bit set, and
after the wrap at scanline 262 back to 0 the vblank-started bit, the
sprite-zero-hit bit and the pending interrupt request are all clear. -/
theorem ppu_frame_boundary (p : PPU) (l : List Nat)
    (hsc : p.scanline = 0) (hcy : p.cycles = 0)
    (hb : ∀ c ∈ l, c ≤ 341) (hsum : l.sum = 341 * 262) :
    (tickRun p l).2 = 1 ∧
    (∀ q ∈ tickStates p l, q.scanline = 241 → isInVblank q.status = true) ∧
    (tickRun p l).1.scanline = 0 ∧
    isInVblank (tickRun p l).1.status = false ∧
    flagContains (tickRun p l).1.status StatusFlags.SPRITE_ZERO_HIT = false ∧
    (tickRun p l).1.nmi_interrupt = none := by
  have hpos : ppuPos p + l.sum = 341 * 262 := by
    unfold ppuPos
    rw [hsc, hcy]
    simpa using hsum
  obtain ⟨h1, h2, h3, _, h5, h6, h7⟩ := tickRun_inv l p (by omega) (by omega)
    (by intro h; omega) hb hpos
  exact ⟨h1, fun q hq hq241 => h2 q hq (by omega), h3, h5, h6, h7⟩

theorem ppu_frame_boundary_witness :
    (PPU.new [] Mirroring.Horizontal).scanline = 0 ∧
    (PPU.new [] Mirroring.Horizontal).cycles = 0 ∧
    (∀ c ∈ List.replicate 262 341, c ≤ 341) ∧
    (List.replicate 262 341).sum = 341 * 262 ∧
    ((tickRun (PPU.new [] Mirroring.Horizontal) (List.replicate 262 341)).2 = 1 ∧
     (∀ q ∈ tickStates (PPU.new [] Mirroring.Horizontal) (List.replicate 262 341),
        q.scanline = 241 → isInVblank q.status = true) ∧
     (tickRun (PPU.new [] Mirroring.Horizontal) (List.replicate 262 341)).1.scanline = 0 ∧
     isInVblank (tickRun (PPU.new [] Mirroring.Horizontal)
        (List.replicate 262 341)).1.status = false ∧
     flagContains (tickRun (PPU.new [] Mirroring.Horizontal)
        (List.replicate 262 341)).1.status StatusFlags.SPRITE_ZERO_HIT = false ∧
     (tickRun (PPU.new [] Mirroring.Horizontal)
        (List.replicate 262 341)).1.nmi_interrupt = none) :=
  ⟨rfl, rfl, by decide, by decide,
   ppu_frame_boundary (PPU.new [] Mirroring.Horizontal) (List.replicate 262 341)
     rfl rfl (by decide) (by decide)⟩

end NES
